import Mathlib

/-! A shallow embedding of the sphere ray tracer of ray_trace.cpp.

The embedding follows `src/ray_trace.cpp`.  C++ `float` values are kept as
rationals (no rounding, no NaN), bytes of the frame buffer as natural numbers.
The header `ray_classes.h` (vector, point, ray, sphere and shader classes) is
not among the sources: its types are modelled from the specification and its
operations are a parameter `RayClasses` of every function that calls them.
-/

namespace RayTrace

/-! ## Types declared in ray_classes.h -/

/-- Modelled from the spec: Vector3D of ray_classes.h, three real components
(vx, vy, vz). -/
structure Vector3D where
  vx : ℚ
  vy : ℚ
  vz : ℚ
deriving DecidableEq, Inhabited

/-- Modelled from the spec: Point3D of ray_classes.h, three real components
(x, y, z). -/
structure Point3D where
  x : ℚ
  y : ℚ
  z : ℚ
deriving DecidableEq, Inhabited

/-- Modelled from the spec: ColorRGB of ray_classes.h, components (R, G, B). -/
structure ColorRGB where
  R : ℚ
  G : ℚ
  B : ℚ
deriving DecidableEq, Inhabited

/-- Modelled from the spec: Ray3D of ray_classes.h, an origin and a direction. -/
structure Ray3D where
  point : Point3D
  dir : Vector3D
deriving DecidableEq, Inhabited

/-- Modelled from the spec: Sphere3D of ray_classes.h, a centre and a radius. -/
structure Sphere3D where
  center : Point3D
  radius : ℚ
deriving DecidableEq, Inhabited

/-- Modelled from the spec: the state of the Phong shader of ray_classes.h:
camera point, light colour and direction, and the current object colour with
its ambient, diffuse, specular weights and shininess exponent. -/
structure Phong where
  camera : Point3D
  lightColor : ColorRGB
  lightDir : Vector3D
  objColor : ColorRGB
  Ka : ℚ
  Kd : ℚ
  Ks : ℚ
  Kp : ℚ
deriving DecidableEq, Inhabited

/-- Modelled from the spec: Phong::SetCamera of ray_classes.h stores the camera point. -/
def Phong.SetCamera (sh : Phong) (c : Point3D) : Phong :=
  { sh with camera := c }

/-- Modelled from the spec: Phong::SetLight of ray_classes.h stores the light
colour and direction. -/
def Phong.SetLight (sh : Phong) (c : ColorRGB) (d : Vector3D) : Phong :=
  { sh with lightColor := c, lightDir := d }

/-- Modelled from the spec: Phong::SetObject of ray_classes.h overwrites the
current material: base colour, ambient, diffuse, specular weight, shininess. -/
def Phong.SetObject (sh : Phong) (c : ColorRGB) (ka kd ks kp : ℚ) : Phong :=
  { sh with objColor := c, Ka := ka, Kd := kd, Ks := ks, Kp := kp }

/-- Modelled from the spec: the member functions of ray_classes.h that
ray_trace calls.  `get_intersection` has two reference outputs in the source
(`Point3D &point, Vector3D &normal`); following section 4.1 it either reports no
intersection (`none`, outputs untouched) or returns the hit point and the
normal it stores (`some`). -/
structure RayClasses where
  /-- Vector3D::normalize -/
  normalize : Vector3D → Vector3D
  /-- Point3D::distance -/
  distance : Point3D → Point3D → ℚ
  /-- Ray3D::set(Point3D, Point3D): the ray from the first point through the second -/
  raySet : Point3D → Point3D → Ray3D
  /-- Ray3D::set(Point3D, Vector3D): the ray from a point along a direction -/
  raySetDir : Point3D → Vector3D → Ray3D
  /-- Sphere3D::get_intersection -/
  get_intersection : Sphere3D → Ray3D → Option (Point3D × Vector3D)
  /-- Phong::GetShade: the shaded colour that replaces its colour argument -/
  GetShade : Phong → Point3D → Vector3D → ColorRGB → ColorRGB

/-! ## ray_trace.cpp -/

/-- The value `rand() * (max - min) / RAND_MAX + min` of myrand, for the result
`r` of the call of rand(). -/
def myrand (RAND_MAX r : ℕ) (min max : ℚ) : ℚ :=
  (r : ℚ) * (max - min) / (RAND_MAX : ℚ) + min

/-- The class Sphere of ray_trace.cpp. -/
structure Sphere where
  sphere : Sphere3D
  center : Point3D
  color : ColorRGB
deriving DecidableEq, Inhabited

/-- The constructor of Sphere; `c0 c1 c2` are the three values of
`myrand(0,255)` it draws for the colour. -/
def Sphere.new (x y z radius c0 c1 c2 : ℚ) : Sphere :=
  { center := ⟨x, y, z⟩
    sphere := ⟨⟨x, y, z⟩, radius⟩
    color := ⟨c0 + 50, c1 + 50, c2 + 50⟩ }

def XDIM : ℕ := 900

def YDIM : ℕ := 900

/-- One cell `image[y][x]` of the frame buffer: three bytes. -/
abbrev Pixel := ℕ × ℕ × ℕ

/-- The global `unsigned char image[YDIM][XDIM][3]`. -/
abbrev Image := Fin YDIM → Fin XDIM → Pixel

/-- The three assignments to `image[y][x][0..2]`. -/
def setPixel (image : Image) (y : Fin YDIM) (x : Fin XDIM) (v : Pixel) : Image :=
  fun y1 x1 => if y1 = y ∧ x1 = x then v else image y1 x1

/-- Truncation toward zero, the integral part kept by a float to integer conversion. -/
def truncate (q : ℚ) : ℤ :=
  if 0 ≤ q then q.floor else -((-q).floor)

/-- Conversion of a float to `unsigned char`: the truncated value, reduced
modulo 256 when it does not fit. -/
def toByte (q : ℚ) : ℕ :=
  (truncate q % 256).toNat

/-- The calls that are observed on a run: ray_trace itself and the library calls
around it. -/
inductive Call where
  | srand
  | glClearColor
  | ray_trace
  | glutPostRedisplay
deriving DecidableEq, Repr

/-- The global variables of ray_trace.cpp, with the sequence of calls made so far. -/
structure World where
  image : Image
  position : ℚ
  mode : String
  spheres : List Sphere
  calls : List Call

/-- The exception thrown by `vector::at`. -/
inductive Error where
  | out_of_range
deriving DecidableEq, Repr

/-- A `for` loop whose body may throw: the elements are visited in order and the
first exception ends the loop. -/
def forLoop {σ α : Type} (body : α → σ → Except Error σ) : List α → σ → Except Error σ
  | [], s => .ok s
  | a :: rest, s =>
    match body a s with
    | .ok s1 => forLoop body rest s1
    | .error e => .error e

/-- The sample point on the image plane of pixel (x, y):
`xpos = (x - XDIM/2) * 2.0 / XDIM`, `ypos = (y - YDIM/2) * 2.0 / YDIM`. -/
def samplePoint (x y : ℕ) : Point3D :=
  ⟨(((x : ℤ) - ((XDIM / 2 : ℕ) : ℤ) : ℤ) : ℚ) * 2 / (XDIM : ℚ),
   (((y : ℤ) - ((YDIM / 2 : ℕ) : ℤ) : ℤ) : ℚ) * 2 / (YDIM : ℚ), 0⟩

/-- The camera point `(0, 0, -position)`. -/
def cameraPoint (position : ℚ) : Point3D :=
  ⟨0, 0, -position⟩

/-- The ray from the camera through the sample point of pixel (x, y). -/
def cameraRay (K : RayClasses) (position : ℚ) (x y : ℕ) : Ray3D :=
  K.raySet (cameraPoint position) (samplePoint x y)

/-- The light direction: `(-1,-1,-1)` normalized. -/
def lightDir (K : RayClasses) : Vector3D :=
  K.normalize ⟨-1, -1, -1⟩

/-- The local variables `p`, `n`, `closestDistance`, `intersectSphere` of a pixel. -/
structure Scan where
  p : Point3D
  n : Vector3D
  closestDistance : ℚ
  intersectSphere : ℕ
deriving DecidableEq

/-- The variables at the start of a pixel.  `p` and `n` are uninitialised in the
source; they are read only after an intersection has stored into them. -/
def Scan.start : Scan :=
  ⟨default, default, 99999 / 100, 0⟩

/-- The body of the loop over the spheres (lines 109-116) for sphere `i`. -/
def scanStep (K : RayClasses) (ray : Ray3D) (point : Point3D) (i : ℕ) (s : Sphere)
    (st : Scan) : Scan :=
  match K.get_intersection s.sphere ray with
  | some (p, n) =>
    if K.distance point p < st.closestDistance then
      ⟨p, n, K.distance point p, i⟩
    else
      { st with p := p, n := n }
  | none => st

/-- The loop `for (i = 0; i < spheres.size(); i++)` of lines 107-117, from index
`i` on, over the spheres that remain. -/
def scanFrom (K : RayClasses) (ray : Ray3D) (point : Point3D) :
    ℕ → List Sphere → Scan → Scan
  | _, [], st => st
  | i, s :: rest, st => scanFrom K ray point (i + 1) rest (scanStep K ray point i s st)

/-- The closest-hit scan of pixel (x, y). -/
def closestHit (K : RayClasses) (spheres : List Sphere) (position : ℚ) (x y : ℕ) : Scan :=
  scanFrom K (cameraRay K position x y) (samplePoint x y) 0 spheres Scan.start

/-- The body of the shadow loop (lines 131-134) for sphere `i`: the test writes
its hit point and normal into the same `p` and `n`. -/
def shadowStep (K : RayClasses) (rayToLight : Ray3D) (intersectSphere : ℕ) (color : ColorRGB)
    (i : ℕ) (s : Sphere) (st : Phong × Point3D × Vector3D) : Phong × Point3D × Vector3D :=
  if intersectSphere ≠ i then
    match K.get_intersection s.sphere rayToLight with
    | some (p, n) => (st.1.SetObject color (2 / 10) 0 0 0, p, n)
    | none => st
  else st

/-- The shadow loop of lines 128-135, from index `i` on. -/
def shadowFrom (K : RayClasses) (rayToLight : Ray3D) (intersectSphere : ℕ) (color : ColorRGB) :
    ℕ → List Sphere → Phong × Point3D × Vector3D → Phong × Point3D × Vector3D
  | _, [], st => st
  | i, s :: rest, st =>
    shadowFrom K rayToLight intersectSphere color (i + 1) rest
      (shadowStep K rayToLight intersectSphere color i s st)

/-- Lines 96-135 for pixel (x, y): the scan, `SetObject` for the selected sphere
(throwing when `spheres.at(intersectSphere)` is out of range), the intersection
with the selected sphere and the shadow loop.  The result is the shader and,
when the selected sphere is hit, that sphere with the values of `p` and `n`
on reaching line 137. -/
def traceRay (K : RayClasses) (spheres : List Sphere) (position : ℚ) (x y : ℕ)
    (shader : Phong) : Except Error (Phong × Option (Sphere × Point3D × Vector3D)) :=
  let ray := cameraRay K position x y
  let hit := closestHit K spheres position x y
  match spheres[hit.intersectSphere]? with
  | none => .error .out_of_range
  | some sel =>
    let shader := shader.SetObject sel.color (3 / 10) (4 / 10) (4 / 10) 10
    match K.get_intersection sel.sphere ray with
    | none => .ok (shader, none)
    | some (p, n) =>
      let rayToLight := K.raySetDir p (lightDir K)
      let st := shadowFrom K rayToLight hit.intersectSphere sel.color 0 spheres (shader, p, n)
      .ok (st.1, some (sel, st.2.1, st.2.2))

/-- The bytes stored in mode "normal" (lines 140-142). -/
def normalBytes (n : Vector3D) : Pixel :=
  (toByte (127 + n.vx * 127), toByte (127 + n.vy * 127), toByte (127 + n.vz * 127))

/-- The bytes stored in mode "phong" (lines 150-152). -/
def colorBytes (c : ColorRGB) : Pixel :=
  (toByte c.R, toByte c.G, toByte c.B)

/-- Lines 137-153: the display of a hit, by mode. -/
def display (K : RayClasses) (mode : String) (shader : Phong) (sel : Sphere) (p : Point3D)
    (n : Vector3D) (y : Fin YDIM) (x : Fin XDIM) (image : Image) : Image :=
  let image := if mode = "normal" then setPixel image y x (normalBytes n) else image
  if mode = "phong" then setPixel image y x (colorBytes (K.GetShade shader p n sel.color))
  else image

/-- The body of the pixel loops (lines 85-154) for pixel (x, y). -/
def tracePixel (K : RayClasses) (spheres : List Sphere) (position : ℚ) (mode : String)
    (y : Fin YDIM) (x : Fin XDIM) (st : Phong × Image) : Except Error (Phong × Image) :=
  let image := setPixel st.2 y x (0, 0, 0)
  match traceRay K spheres position x y st.1 with
  | .error e => .error e
  | .ok (shader, none) => .ok (shader, image)
  | .ok (shader, some (sel, p, n)) => .ok (shader, display K mode shader sel p n y x image)

/-- The shader as set up before the pixel loops (lines 61-78). -/
def shaderSetup (K : RayClasses) (position : ℚ) : Phong :=
  (((default : Phong).SetCamera (cameraPoint position)).SetLight ⟨255, 255, 255⟩
    (lightDir K)).SetObject ⟨200, 0, 100⟩ (3 / 10) (4 / 10) (4 / 10) 10

/-- The function ray_trace: one pass over all pixels, rows outermost; an
exception of the pixel body leaves the function. -/
def ray_trace (K : RayClasses) (w : World) : Except Error World :=
  (forLoop (fun y st => forLoop (fun x st => tracePixel K w.spheres w.position w.mode y x st)
      (List.finRange XDIM) st) (List.finRange YDIM) (shaderSetup K w.position, w.image)).map
    fun st => { w with image := st.2, calls := w.calls ++ [Call.ray_trace] }

/-- The sphere pushed by iteration `i` of the loop of init; `rand k` is the
result of the k-th call of rand() after srand, the arguments of the constructor
being evaluated left to right, before the three colour draws of its body. -/
def newSphere (RAND_MAX : ℕ) (rand : ℕ → ℕ) (i : ℕ) : Sphere :=
  Sphere.new (myrand RAND_MAX (rand (7 * i)) (-1) 1) (myrand RAND_MAX (rand (7 * i + 1)) (-1) 1)
    (myrand RAND_MAX (rand (7 * i + 2)) 0 3 + 2 / 10)
    (myrand RAND_MAX (rand (7 * i + 3)) (4 / 10) (5 / 10))
    (myrand RAND_MAX (rand (7 * i + 4)) 0 255) (myrand RAND_MAX (rand (7 * i + 5)) 0 255)
    (myrand RAND_MAX (rand (7 * i + 6)) 0 255)

/-- The function init: reseed, clear the scene, push 8 random spheres, render. -/
def init (K : RayClasses) (RAND_MAX : ℕ) (rand : ℕ → ℕ) (w : World) : Except Error World :=
  let w := { w with calls := w.calls ++ [Call.srand, Call.glClearColor] }
  let w := { w with spheres := [] }
  let w := (List.range 8).foldl
    (fun w i => { w with spheres := w.spheres ++ [newSphere RAND_MAX rand i] }) w
  ray_trace K w

/-- The update of the globals by the key, before the render of keyboard: the
if-else chain of lines 203-218. -/
def keyAction (K : RayClasses) (RAND_MAX : ℕ) (rand : ℕ → ℕ) (key : Char) (w : World) :
    Except Error World :=
  if key = 'r' then init K RAND_MAX rand w
  else if key = '+' ∧ w.position < 5 then .ok { w with position := w.position * (11 / 10) }
  else if key = '-' ∧ w.position > 1 then .ok { w with position := w.position / (11 / 10) }
  else if key = 'n' then .ok { w with mode := "normal" }
  else if key = 'p' then .ok { w with mode := "phong" }
  else .ok w

/-- The function keyboard; `none` is the exit of the program on key q. -/
def keyboard (K : RayClasses) (RAND_MAX : ℕ) (rand : ℕ → ℕ) (key : Char) (w : World) :
    Except Error (Option World) :=
  if key = 'q' then .ok none
  else
    ((keyAction K RAND_MAX rand key w).bind (ray_trace K)).map
      fun w2 => some { w2 with calls := w2.calls ++ [Call.glutPostRedisplay] }

/-- The globals as initialised at program start. -/
def World.initial : World :=
  { image := fun _ _ => (0, 0, 0), position := 3, mode := "phong", spheres := [], calls := [] }

/-- The start of main: init on the initial globals. -/
def startup (K : RayClasses) (RAND_MAX : ℕ) (rand : ℕ → ℕ) : Except Error World :=
  init K RAND_MAX rand World.initial

/-- A run of the event loop: keyboard on each key event in turn, each with the
random sequence its reset would draw from; the run ends at exit. -/
def runKeys (K : RayClasses) (RAND_MAX : ℕ) :
    List (Char × (ℕ → ℕ)) → World → Except Error (Option World)
  | [], w => .ok (some w)
  | e :: rest, w =>
    (keyboard K RAND_MAX e.2 e.1 w).bind fun r =>
      match r with
      | none => .ok none
      | some w1 => runKeys K RAND_MAX rest w1

/-! ## The operations of ray_classes.h, after the specification -/

/-- Newton iteration for the integer square root, bounded by a step count. -/
def isqrtAux : ℕ → ℕ → ℕ → ℕ
  | 0, _, x => x
  | k + 1, n, x =>
    let y := (x + n / x) / 2
    if y < x then isqrtAux k n y else x

/-- Integer square root, rounded down. -/
def isqrt (n : ℕ) : ℕ :=
  if n = 0 then 0 else isqrtAux 8192 n n

/-- Square root on the rationals, standing for sqrt on floats: exact on the
squares of rationals, otherwise rounded down to a multiple of
1 / (den * 2^32). -/
def qsqrt (q : ℚ) : ℚ :=
  (isqrt (q.num.toNat * q.den * 4294967296 * 4294967296) : ℚ) / ((q.den : ℚ) * 4294967296)

/-- Modelled from the spec: the dot product of Vector3D (section 2). -/
def Vector3D.dot (a b : Vector3D) : ℚ :=
  a.vx * b.vx + a.vy * b.vy + a.vz * b.vz

/-- Modelled from the spec: Vector3D::normalize scales to unit length
(section 3); a zero vector is left as it is. -/
def Vector3D.normalize (v : Vector3D) : Vector3D :=
  let len := qsqrt (v.dot v)
  if len = 0 then v else ⟨v.vx / len, v.vy / len, v.vz / len⟩

/-- Modelled from the spec: the vector from point `b` to point `a` (subtract,
section 2). -/
def Point3D.sub (a b : Point3D) : Vector3D :=
  ⟨a.x - b.x, a.y - b.y, a.z - b.z⟩

/-- Modelled from the spec: Point3D::distance, the point-to-point distance
(section 3). -/
def Point3D.distance (a b : Point3D) : ℚ :=
  qsqrt ((a.sub b).dot (a.sub b))

/-- Modelled from the spec: Ray3D::set from two points: origin at the first,
direction toward the second, normalized at construction (section 3). -/
def Ray3D.setPoints (p1 p2 : Point3D) : Ray3D :=
  ⟨p1, (p2.sub p1).normalize⟩

/-- Modelled from the spec: Ray3D::set from a point and a direction vector,
normalized at construction (section 3). -/
def Ray3D.setDir (p : Point3D) (d : Vector3D) : Ray3D :=
  ⟨p, d.normalize⟩

/-- Modelled from the spec: the point of a ray at parameter t, origin + t * direction
(section 4.1). -/
def Ray3D.get_sample (r : Ray3D) (t : ℚ) : Point3D :=
  ⟨r.point.x + t * r.dir.vx, r.point.y + t * r.dir.vy, r.point.z + t * r.dir.vz⟩

/-- Modelled from the spec: Sphere3D::get_intersection (section 4.1): the
quadratic of the ray in the implicit equation of the sphere; no intersection
when the discriminant is negative or both roots are negative; otherwise the
smallest non-negative root gives the hit point, with the outward unit normal.
A zero direction vector gives no intersection. -/
def Sphere3D.get_intersection (s : Sphere3D) (ray : Ray3D) : Option (Point3D × Vector3D) :=
  let oc := ray.point.sub s.center
  let A := ray.dir.dot ray.dir
  let B := 2 * oc.dot ray.dir
  let C := oc.dot oc - s.radius * s.radius
  let discriminant := B * B - 4 * A * C
  if A = 0 ∨ discriminant < 0 then none
  else
    let root1 := (-B - qsqrt discriminant) / (2 * A)
    let root2 := (-B + qsqrt discriminant) / (2 * A)
    if root1 < 0 ∧ root2 < 0 then none
    else
      let solution := if 0 ≤ root1 then root1 else root2
      let point := ray.get_sample solution
      some (point, (point.sub s.center).normalize)

/-- Modelled from the spec: clamp of a colour channel to [0, 255] (section 4.4). -/
def clamp255 (q : ℚ) : ℚ :=
  if q < 0 then 0 else if 255 < q then 255 else q

/-- Modelled from the spec: Phong::GetShade (section 4.4): ambient, diffuse and
specular terms summed channel-wise and clamped to [0, 255]. -/
def Phong.GetShade (sh : Phong) (p : Point3D) (n : Vector3D) (base : ColorRGB) : ColorRGB :=
  let toLight : Vector3D := ⟨-sh.lightDir.vx, -sh.lightDir.vy, -sh.lightDir.vz⟩
  let diffuse := sh.Kd * max 0 (n.dot toLight)
  let k := 2 * sh.lightDir.dot n
  let reflect : Vector3D :=
    ⟨sh.lightDir.vx - k * n.vx, sh.lightDir.vy - k * n.vy, sh.lightDir.vz - k * n.vz⟩
  let view := (sh.camera.sub p).normalize
  let specular := sh.Ks * (max 0 (reflect.dot view)) ^ sh.Kp.floor.toNat
  ⟨clamp255 (sh.Ka * base.R + diffuse * base.R + specular * sh.lightColor.R),
   clamp255 (sh.Ka * base.G + diffuse * base.G + specular * sh.lightColor.G),
   clamp255 (sh.Ka * base.B + diffuse * base.B + specular * sh.lightColor.B)⟩

/-- Modelled from the spec: the operations of ray_classes.h as the
specification describes them. -/
def specClasses : RayClasses :=
  { normalize := Vector3D.normalize
    distance := Point3D.distance
    raySet := Ray3D.setPoints
    raySetDir := Ray3D.setDir
    get_intersection := Sphere3D.get_intersection
    GetShade := Phong.GetShade }

/-! ## Concrete scenes -/

/-- The ranges init draws a sphere from: centre x and y in [-1, 1], centre z in
[0.2, 3.2], radius in [0.4, 0.5], colour channels in [50, 305]. -/
def inGeneratorRange (s : Sphere) : Prop :=
  s.sphere.center = s.center ∧
  -1 ≤ s.center.x ∧ s.center.x ≤ 1 ∧ -1 ≤ s.center.y ∧ s.center.y ≤ 1 ∧
  2 / 10 ≤ s.center.z ∧ s.center.z ≤ 32 / 10 ∧
  4 / 10 ≤ s.sphere.radius ∧ s.sphere.radius ≤ 5 / 10 ∧
  50 ≤ s.color.R ∧ s.color.R ≤ 305 ∧ 50 ≤ s.color.G ∧ s.color.G ≤ 305 ∧
  50 ≤ s.color.B ∧ s.color.B ≤ 305

instance (s : Sphere) : Decidable (inGeneratorRange s) := by
  unfold inGeneratorRange
  infer_instance

/-- A sphere in the far corner of the generator range, off every ray used below. -/
def cornerSphere : Sphere :=
  Sphere.new 1 1 3 (4 / 10) 100 100 100

/-- A scene of 8 spheres: sphere 0 reaches in front of the image plane on the
axis of view, sphere 1 lies behind it on the same axis. -/
def sceneAxis : List Sphere :=
  [Sphere.new 0 0 (2 / 10) (5 / 10) 200 0 0, Sphere.new 0 0 (6 / 10) (5 / 10) 0 200 0,
   cornerSphere, cornerSphere, cornerSphere, cornerSphere, cornerSphere, cornerSphere]

/-- A scene of 8 spheres: sphere 0 on the axis of view, sphere 1 beside the axis,
between the near point of sphere 0 and the light direction. -/
def sceneShadow : List Sphere :=
  [Sphere.new 0 0 (15 / 10) (5 / 10) 200 0 0,
   Sphere.new (-5 / 10) (-5 / 10) (5 / 10) (5 / 10) 0 200 0,
   cornerSphere, cornerSphere, cornerSphere, cornerSphere, cornerSphere, cornerSphere]

/-- The globals at start with a given scene and mode. -/
def worldOf (spheres : List Sphere) (mode : String) : World :=
  { World.initial with spheres := spheres, mode := mode }

/-! ## Derived notions used by the statements -/

/-- Two shader states with the same camera and the same light. -/
def sameLight (a b : Phong) : Prop :=
  a.camera = b.camera ∧ a.lightColor = b.lightColor ∧ a.lightDir = b.lightDir

/-- The bytes of pixel (x, y) at the end of the pixel body, computed from the
scene, the camera distance and the mode alone: the display of the hit found by
traceRay under the shader set up at the start of the pass, or the cleared
value. -/
def pixelValue (K : RayClasses) (spheres : List Sphere) (position : ℚ) (mode : String)
    (x y : ℕ) : Pixel :=
  match traceRay K spheres position x y (shaderSetup K position) with
  | .ok (shader, some (sel, p, n)) =>
    if mode = "phong" then colorBytes (K.GetShade shader p n sel.color)
    else if mode = "normal" then normalBytes n
    else (0, 0, 0)
  | _ => (0, 0, 0)

/-- The camera distance after one key event, as keyboard updates it. -/
def stepPosition (key : Char) (position : ℚ) : ℚ :=
  if key = 'r' then position
  else if key = '+' ∧ position < 5 then position * (11 / 10)
  else if key = '-' ∧ position > 1 then position / (11 / 10)
  else position

/-- The camera distance after a sequence of key events. -/
def positionAfter : List Char → ℚ → ℚ
  | [], position => position
  | key :: rest, position => positionAfter rest (stepPosition key position)

/-- The scene built by init: the eight spheres pushed by its loop. -/
def initScene (RAND_MAX : ℕ) (rand : ℕ → ℕ) : List Sphere :=
  [newSphere RAND_MAX rand 0, newSphere RAND_MAX rand 1, newSphere RAND_MAX rand 2,
   newSphere RAND_MAX rand 3, newSphere RAND_MAX rand 4, newSphere RAND_MAX rand 5,
   newSphere RAND_MAX rand 6, newSphere RAND_MAX rand 7]

/-- Six presses of the key +, each with a random sequence that is not drawn from. -/
def sixPlus : List (Char × (ℕ → ℕ)) :=
  List.replicate 6 ('+', fun _ => 0)

/-! ## The closest-hit scan -/

/-- The scan from index `i` over `l`: either no sphere of `l` is hit below the
incoming bound and the selection is unchanged, or the selection is the first
sphere of `l` at the least hit distance, which is below the incoming bound. -/
theorem scanFrom_spec (K : RayClasses) (ray : Ray3D) (point : Point3D) (l : List Sphere) :
    ∀ (i : ℕ) (st : Scan),
      ((scanFrom K ray point i l st).closestDistance = st.closestDistance ∧
        (scanFrom K ray point i l st).intersectSphere = st.intersectSphere ∧
        ∀ (j : ℕ) (s : Sphere) (p : Point3D) (n : Vector3D), l[j]? = some s →
          K.get_intersection s.sphere ray = some (p, n) →
          st.closestDistance ≤ K.distance point p) ∨
      (∃ (j : ℕ) (s : Sphere) (p : Point3D) (n : Vector3D), l[j]? = some s ∧
        K.get_intersection s.sphere ray = some (p, n) ∧
        (scanFrom K ray point i l st).intersectSphere = i + j ∧
        (scanFrom K ray point i l st).closestDistance = K.distance point p ∧
        K.distance point p < st.closestDistance ∧
        ∀ (j1 : ℕ) (s1 : Sphere) (p1 : Point3D) (n1 : Vector3D), l[j1]? = some s1 →
          K.get_intersection s1.sphere ray = some (p1, n1) →
          K.distance point p ≤ K.distance point p1 ∧
          (K.distance point p1 = K.distance point p → j ≤ j1)) := by
  induction l with
  | nil =>
    intro i st
    left
    simp [scanFrom]
  | cons s rest ih =>
    intro i st
    simp only [scanFrom]
    cases hs : K.get_intersection s.sphere ray with
    | none =>
      have hst : scanStep K ray point i s st = st := by simp [scanStep, hs]
      rw [hst]
      rcases ih (i + 1) st with ⟨h1, h2, h3⟩ | ⟨j, t, p, n, hj, ht, hi, hd, hlt, hmin⟩
      · left
        refine ⟨h1, h2, ?_⟩
        intro j1 s1 p1 n1 hj1 hs1
        cases j1 with
        | zero =>
          simp at hj1
          subst hj1
          rw [hs] at hs1
          cases hs1
        | succ j2 =>
          simp at hj1
          exact h3 j2 s1 p1 n1 hj1 hs1
      · right
        refine ⟨j + 1, t, p, n, by simpa using hj, ht, by omega, hd, hlt, ?_⟩
        intro j1 s1 p1 n1 hj1 hs1
        cases j1 with
        | zero =>
          simp at hj1
          subst hj1
          rw [hs] at hs1
          cases hs1
        | succ j2 =>
          simp at hj1
          obtain ⟨ha, hb⟩ := hmin j2 s1 p1 n1 hj1 hs1
          exact ⟨ha, fun h => by have := hb h; omega⟩
    | some pn =>
      obtain ⟨p0, n0⟩ := pn
      by_cases hlt0 : K.distance point p0 < st.closestDistance
      · have hst : scanStep K ray point i s st = ⟨p0, n0, K.distance point p0, i⟩ := by
          simp [scanStep, hs, hlt0]
        rw [hst]
        rcases ih (i + 1) ⟨p0, n0, K.distance point p0, i⟩ with
          ⟨h1, h2, h3⟩ | ⟨j, t, p, n, hj, ht, hi, hd, hlt, hmin⟩
        · right
          refine ⟨0, s, p0, n0, by simp, hs, by simpa using h2, by simpa using h1, hlt0, ?_⟩
          intro j1 s1 p1 n1 hj1 hs1
          cases j1 with
          | zero =>
            simp at hj1
            subst hj1
            rw [hs] at hs1
            cases hs1
            exact ⟨le_refl _, fun _ => le_refl _⟩
          | succ j2 =>
            simp at hj1
            exact ⟨h3 j2 s1 p1 n1 hj1 hs1, fun _ => Nat.zero_le _⟩
        · right
          simp only at hlt
          refine ⟨j + 1, t, p, n, by simpa using hj, ht, by omega, hd, lt_trans hlt hlt0, ?_⟩
          intro j1 s1 p1 n1 hj1 hs1
          cases j1 with
          | zero =>
            simp at hj1
            subst hj1
            rw [hs] at hs1
            cases hs1
            exact ⟨le_of_lt hlt, fun h => absurd h (ne_of_gt hlt)⟩
          | succ j2 =>
            simp at hj1
            obtain ⟨ha, hb⟩ := hmin j2 s1 p1 n1 hj1 hs1
            exact ⟨ha, fun h => by have := hb h; omega⟩
      · have hst : scanStep K ray point i s st = { st with p := p0, n := n0 } := by
          simp [scanStep, hs, hlt0]
        rw [hst]
        rcases ih (i + 1) { st with p := p0, n := n0 } with
          ⟨h1, h2, h3⟩ | ⟨j, t, p, n, hj, ht, hi, hd, hlt, hmin⟩
        · left
          refine ⟨h1, h2, ?_⟩
          intro j1 s1 p1 n1 hj1 hs1
          cases j1 with
          | zero =>
            simp at hj1
            subst hj1
            rw [hs] at hs1
            cases hs1
            exact le_of_not_lt hlt0
          | succ j2 =>
            simp at hj1
            exact h3 j2 s1 p1 n1 hj1 hs1
        · right
          simp only at hlt
          refine ⟨j + 1, t, p, n, by simpa using hj, ht, by omega, hd, hlt, ?_⟩
          intro j1 s1 p1 n1 hj1 hs1
          cases j1 with
          | zero =>
            simp at hj1
            subst hj1
            rw [hs] at hs1
            cases hs1
            have hle := le_of_not_lt hlt0
            exact ⟨le_of_lt (lt_of_lt_of_le hlt hle),
              fun h => absurd (h ▸ hle) (not_le_of_lt hlt)⟩
          | succ j2 =>
            simp at hj1
            obtain ⟨ha, hb⟩ := hmin j2 s1 p1 n1 hj1 hs1
            exact ⟨ha, fun h => by have := hb h; omega⟩

/-- The selected index is an index of the scene as soon as the scene is not empty. -/
theorem closestHit_lt (K : RayClasses) (spheres : List Sphere) (position : ℚ) (x y : ℕ)
    (h : spheres ≠ []) : (closestHit K spheres position x y).intersectSphere < spheres.length := by
  unfold closestHit
  rcases scanFrom_spec K (cameraRay K position x y) (samplePoint x y) spheres 0 Scan.start with
    ⟨_, h2, _⟩ | ⟨j, t, p, n, hj, _, hi, _⟩
  · rw [h2]
    simpa [Scan.start] using List.length_pos.mpr h
  · rw [hi]
    have := (List.getElem?_eq_some.mp hj).1
    omega

/-- When no sphere is hit the selection stays at the default index 0. -/
theorem closestHit_miss (K : RayClasses) (spheres : List Sphere) (position : ℚ) (x y : ℕ)
    (h : ∀ s ∈ spheres, K.get_intersection s.sphere (cameraRay K position x y) = none) :
    (closestHit K spheres position x y).intersectSphere = 0 := by
  unfold closestHit
  rcases scanFrom_spec K (cameraRay K position x y) (samplePoint x y) spheres 0 Scan.start with
    ⟨_, h2, _⟩ | ⟨j, t, p, n, hj, ht, _⟩
  · simpa [Scan.start] using h2
  · have hmem : t ∈ spheres := List.getElem?_mem hj
    rw [h t hmem] at ht
    cases ht

/-! ## The shadow loop -/

/-- Setting the shadow material twice is setting it once. -/
theorem SetObject_SetObject (sh : Phong) (c : ColorRGB) (a b d e a1 b1 d1 e1 : ℚ) :
    (sh.SetObject c a b d e).SetObject c a1 b1 d1 e1 = sh.SetObject c a1 b1 d1 e1 := by
  simp [Phong.SetObject]

/-- The shader after the shadow loop from index `i` over `l`: the shadow material
when a sphere of `l` other than the selected one is hit by the ray to the light,
the incoming shader otherwise. -/
theorem shadowFrom_shader (K : RayClasses) (r : Ray3D) (k : ℕ) (c : ColorRGB)
    (l : List Sphere) :
    ∀ (i : ℕ) (st : Phong × Point3D × Vector3D),
      ((∃ (j : ℕ) (t : Sphere), l[j]? = some t ∧ k ≠ i + j ∧
          K.get_intersection t.sphere r ≠ none) →
        (shadowFrom K r k c i l st).1 = st.1.SetObject c (2 / 10) 0 0 0) ∧
      ((¬ ∃ (j : ℕ) (t : Sphere), l[j]? = some t ∧ k ≠ i + j ∧
          K.get_intersection t.sphere r ≠ none) →
        shadowFrom K r k c i l st = st) := by
  induction l with
  | nil =>
    intro i st
    simp [shadowFrom]
  | cons s rest ih =>
    intro i st
    simp only [shadowFrom]
    by_cases hrest : ∃ (j : ℕ) (t : Sphere), rest[j]? = some t ∧ k ≠ i + 1 + j ∧
        K.get_intersection t.sphere r ≠ none
    · have h1 := (ih (i + 1) (shadowStep K r k c i s st)).1 hrest
      have hall : ∃ (j : ℕ) (t : Sphere), (s :: rest)[j]? = some t ∧ k ≠ i + j ∧
          K.get_intersection t.sphere r ≠ none := by
        obtain ⟨j, t, hj, hk, ht⟩ := hrest
        exact ⟨j + 1, t, by simpa using hj, by omega, ht⟩
      refine ⟨fun _ => ?_, fun h => absurd hall h⟩
      rw [h1]
      unfold shadowStep
      split
      · split
        · exact SetObject_SetObject _ _ _ _ _ _ _ _ _ _
        · rfl
      · rfl
    · have h2 := (ih (i + 1) (shadowStep K r k c i s st)).2 hrest
      rw [h2]
      by_cases hhead : k ≠ i ∧ K.get_intersection s.sphere r ≠ none
      · have hall : ∃ (j : ℕ) (t : Sphere), (s :: rest)[j]? = some t ∧ k ≠ i + j ∧
            K.get_intersection t.sphere r ≠ none :=
          ⟨0, s, by simp, by simpa using hhead.1, hhead.2⟩
        refine ⟨fun _ => ?_, fun h => absurd hall h⟩
        unfold shadowStep
        rw [if_pos hhead.1]
        cases hs : K.get_intersection s.sphere r with
        | none => exact absurd hs hhead.2
        | some pn => rfl
      · have hnone : ¬ ∃ (j : ℕ) (t : Sphere), (s :: rest)[j]? = some t ∧ k ≠ i + j ∧
            K.get_intersection t.sphere r ≠ none := by
          rintro ⟨j, t, hj, hk, ht⟩
          cases j with
          | zero =>
            simp at hj
            subst hj
            exact hhead ⟨by simpa using hk, ht⟩
          | succ j2 =>
            simp at hj
            exact hrest ⟨j2, t, hj, by omega, ht⟩
        refine ⟨fun h => absurd h hnone, fun _ => ?_⟩
        unfold shadowStep
        by_cases hk : k ≠ i
        · rw [if_pos hk]
          cases hs : K.get_intersection s.sphere r with
          | none => rfl
          | some pn => exact absurd ⟨hk, by simp [hs]⟩ hhead
        · rw [if_neg hk]

/-- The shadow loop changes nothing of the shader but the material. -/
theorem shadowFrom_light (K : RayClasses) (r : Ray3D) (k : ℕ) (c : ColorRGB)
    (l : List Sphere) (i : ℕ) (st : Phong × Point3D × Vector3D) :
    (shadowFrom K r k c i l st).1.camera = st.1.camera ∧
    (shadowFrom K r k c i l st).1.lightColor = st.1.lightColor ∧
    (shadowFrom K r k c i l st).1.lightDir = st.1.lightDir := by
  by_cases h : ∃ (j : ℕ) (t : Sphere), l[j]? = some t ∧ k ≠ i + j ∧
      K.get_intersection t.sphere r ≠ none
  · rw [(shadowFrom_shader K r k c l i st).1 h]
    simp [Phong.SetObject]
  · rw [(shadowFrom_shader K r k c l i st).2 h]
    simp

/-! ## One pixel -/

theorem SetObject_congr (a b : Phong) (h : sameLight a b) (c : ColorRGB) (k1 k2 k3 k4 : ℚ) :
    a.SetObject c k1 k2 k3 k4 = b.SetObject c k1 k2 k3 k4 := by
  obtain ⟨h1, h2, h3⟩ := h
  simp [Phong.SetObject, h1, h2, h3]

/-- The result of traceRay depends on the incoming shader only through its
camera and light: the material is overwritten before it is read. -/
theorem traceRay_congr (K : RayClasses) (spheres : List Sphere) (position : ℚ) (x y : ℕ)
    (a b : Phong) (h : sameLight a b) :
    traceRay K spheres position x y a = traceRay K spheres position x y b := by
  unfold traceRay
  simp only [SetObject_congr a b h]

/-- On a scene that is not empty traceRay does not throw, and it keeps the
camera and light of the shader. -/
theorem traceRay_ok (K : RayClasses) (spheres : List Sphere) (position : ℚ) (x y : ℕ)
    (a : Phong) (h : spheres ≠ []) :
    ∃ sh r, traceRay K spheres position x y a = .ok (sh, r) ∧ sameLight sh a := by
  have hlt := closestHit_lt K spheres position x y h
  obtain ⟨sel, hsel⟩ : ∃ sel, spheres[(closestHit K spheres position x y).intersectSphere]?
      = some sel := ⟨_, List.getElem?_eq_getElem hlt⟩
  unfold traceRay
  simp only [hsel]
  cases hs : K.get_intersection sel.sphere (cameraRay K position x y) with
  | none =>
    exact ⟨_, _, rfl, by simp [sameLight, Phong.SetObject]⟩
  | some pn =>
    obtain ⟨p, n⟩ := pn
    refine ⟨_, _, rfl, ?_⟩
    have hl := shadowFrom_light K (K.raySetDir p (lightDir K))
      (closestHit K spheres position x y).intersectSphere sel.color spheres 0
      (a.SetObject sel.color (3 / 10) (4 / 10) (4 / 10) 10, p, n)
    simpa [sameLight, Phong.SetObject] using hl

/-- On an empty scene traceRay throws: `spheres.at(0)` is out of range. -/
theorem traceRay_nil (K : RayClasses) (position : ℚ) (x y : ℕ) (a : Phong) :
    traceRay K [] position x y a = .error .out_of_range := by
  simp [traceRay]

theorem setPixel_setPixel (image : Image) (y : Fin YDIM) (x : Fin XDIM) (u v : Pixel) :
    setPixel (setPixel image y x u) y x v = setPixel image y x v := by
  funext y1 x1
  simp only [setPixel]
  split <;> rfl

/-- The display step on a cleared pixel. -/
theorem display_cleared (K : RayClasses) (mode : String) (shader : Phong) (sel : Sphere)
    (p : Point3D) (n : Vector3D) (y : Fin YDIM) (x : Fin XDIM) (image : Image) :
    display K mode shader sel p n y x (setPixel image y x (0, 0, 0)) =
      setPixel image y x
        (if mode = "phong" then colorBytes (K.GetShade shader p n sel.color)
         else if mode = "normal" then normalBytes n
         else (0, 0, 0)) := by
  unfold display
  by_cases h1 : mode = "phong"
  · by_cases h2 : mode = "normal"
    · simp [h1, setPixel_setPixel]
    · simp [h1, setPixel_setPixel]
  · by_cases h2 : mode = "normal"
    · simp [h1, h2, setPixel_setPixel]
    · simp [h1, h2]

/-- The pixel body on a scene that is not empty: it stores pixelValue into
`image[y][x]`, whatever the incoming material and frame buffer. -/
theorem tracePixel_eq (K : RayClasses) (spheres : List Sphere) (position : ℚ) (mode : String)
    (y : Fin YDIM) (x : Fin XDIM) (st : Phong × Image) (h : spheres ≠ [])
    (hl : sameLight st.1 (shaderSetup K position)) :
    ∃ sh, sameLight sh (shaderSetup K position) ∧
      tracePixel K spheres position mode y x st =
        .ok (sh, setPixel st.2 y x (pixelValue K spheres position mode x y)) := by
  obtain ⟨sh, r, hr, hsl⟩ := traceRay_ok K spheres position x y (shaderSetup K position) h
  unfold tracePixel pixelValue
  rw [traceRay_congr K spheres position x y st.1 _ hl, hr]
  cases r with
  | none => exact ⟨sh, hsl, rfl⟩
  | some t =>
    obtain ⟨sel, p, n⟩ := t
    refine ⟨sh, hsl, ?_⟩
    simp only [display_cleared]

/-- The pixel body on the empty scene throws. -/
theorem tracePixel_nil (K : RayClasses) (position : ℚ) (mode : String)
    (y : Fin YDIM) (x : Fin XDIM) (st : Phong × Image) :
    tracePixel K [] position mode y x st = .error .out_of_range := by
  simp [tracePixel, traceRay_nil]

/-! ## The pixel loops -/

theorem sameLight_refl (a : Phong) : sameLight a a :=
  ⟨rfl, rfl, rfl⟩

/-- The loop over the columns `l` of row `y`. -/
theorem row_eq (K : RayClasses) (spheres : List Sphere) (position : ℚ) (mode : String)
    (h : spheres ≠ []) (y : Fin YDIM) (l : List (Fin XDIM)) :
    ∀ st : Phong × Image, sameLight st.1 (shaderSetup K position) →
      ∃ sh, sameLight sh (shaderSetup K position) ∧
        forLoop (fun x st => tracePixel K spheres position mode y x st) l st =
          .ok (sh, fun y1 x1 =>
            if y1 = y ∧ x1 ∈ l then pixelValue K spheres position mode x1 y1 else st.2 y1 x1) := by
  induction l with
  | nil =>
    intro st hl
    exact ⟨st.1, hl, by simp [forLoop]⟩
  | cons a rest ih =>
    intro st hl
    obtain ⟨sh1, hsl1, heq⟩ := tracePixel_eq K spheres position mode y a st h hl
    obtain ⟨sh2, hsl2, h2⟩ := ih (sh1, setPixel st.2 y a (pixelValue K spheres position mode a y))
      hsl1
    refine ⟨sh2, hsl2, ?_⟩
    simp only [forLoop, heq, h2]
    congr 2
    funext y1 x1
    simp only [setPixel, List.mem_cons]
    by_cases hy : y1 = y
    · by_cases hx : x1 = a
      · by_cases hr : x1 ∈ rest
        · simp [hy, hr]
        · simp [hy, hx, hr]
      · simp [hy, hx]
    · simp [hy]

/-- The loop over the rows `ly`, each over the columns `lx`. -/
theorem rows_eq (K : RayClasses) (spheres : List Sphere) (position : ℚ) (mode : String)
    (h : spheres ≠ []) (lx : List (Fin XDIM)) (ly : List (Fin YDIM)) :
    ∀ st : Phong × Image, sameLight st.1 (shaderSetup K position) →
      ∃ sh, sameLight sh (shaderSetup K position) ∧
        forLoop (fun y st =>
            forLoop (fun x st => tracePixel K spheres position mode y x st) lx st) ly st =
          .ok (sh, fun y1 x1 =>
            if y1 ∈ ly ∧ x1 ∈ lx then pixelValue K spheres position mode x1 y1
            else st.2 y1 x1) := by
  induction ly with
  | nil =>
    intro st hl
    exact ⟨st.1, hl, by simp [forLoop]⟩
  | cons a rest ih =>
    intro st hl
    obtain ⟨sh1, hsl1, heq⟩ := row_eq K spheres position mode h a lx st hl
    obtain ⟨sh2, hsl2, h2⟩ := ih (sh1, fun y1 x1 =>
      if y1 = a ∧ x1 ∈ lx then pixelValue K spheres position mode x1 y1 else st.2 y1 x1) hsl1
    refine ⟨sh2, hsl2, ?_⟩
    simp only [forLoop, heq, h2]
    congr 2
    funext y1 x1
    simp only [List.mem_cons]
    by_cases hy : y1 = a
    · by_cases hx : x1 ∈ lx
      · by_cases hr : y1 ∈ rest
        · simp [hx, hr]
        · simp [hy, hx]
      · simp [hx]
    · simp [hy]

/-- A loop over a list that is not empty throws when its body always throws. -/
theorem forLoop_error {σ α : Type} (body : α → σ → Except Error σ) (e : Error)
    (hb : ∀ a s, body a s = .error e) (l : List α) (hl : l ≠ []) (s : σ) :
    forLoop body l s = .error e := by
  cases l with
  | nil => exact absurd rfl hl
  | cons a rest => simp [forLoop, hb]

/-- A pass over a scene that is not empty: every pixel receives pixelValue, the
scene, camera distance and mode are unchanged, one call of ray_trace is recorded. -/
theorem ray_trace_eq (K : RayClasses) (w : World) (h : w.spheres ≠ []) :
    ray_trace K w = .ok
      { w with
        image := fun y x => pixelValue K w.spheres w.position w.mode x y
        calls := w.calls ++ [Call.ray_trace] } := by
  obtain ⟨sh, _, heq⟩ := rows_eq K w.spheres w.position w.mode h (List.finRange XDIM)
    (List.finRange YDIM) (shaderSetup K w.position, w.image) (sameLight_refl _)
  have himg : (fun (y1 : Fin YDIM) (x1 : Fin XDIM) =>
      if y1 ∈ List.finRange YDIM ∧ x1 ∈ List.finRange XDIM then
        pixelValue K w.spheres w.position w.mode x1 y1
      else w.image y1 x1) =
        fun (y : Fin YDIM) (x : Fin XDIM) => pixelValue K w.spheres w.position w.mode x y := by
    funext y1 x1
    exact if_pos ⟨List.mem_finRange y1, List.mem_finRange x1⟩
  rw [himg] at heq
  unfold ray_trace
  rw [heq]
  rfl

theorem finRange_XDIM_ne_nil : List.finRange XDIM ≠ [] := by
  apply List.ne_nil_of_length_pos
  rw [List.length_finRange]
  exact Nat.succ_pos 899

theorem finRange_YDIM_ne_nil : List.finRange YDIM ≠ [] := by
  apply List.ne_nil_of_length_pos
  rw [List.length_finRange]
  exact Nat.succ_pos 899

/-- A pass over the empty scene throws out_of_range at its first pixel. -/
theorem ray_trace_nil (K : RayClasses) (w : World) (h : w.spheres = []) :
    ray_trace K w = .error .out_of_range := by
  have hrows : forLoop (fun y st => forLoop (fun x st =>
      tracePixel K w.spheres w.position w.mode y x st) (List.finRange XDIM) st)
      (List.finRange YDIM) (shaderSetup K w.position, w.image) = .error .out_of_range := by
    apply forLoop_error _ Error.out_of_range _ _ finRange_YDIM_ne_nil
    intro y st
    apply forLoop_error _ Error.out_of_range _ _ finRange_XDIM_ne_nil
    intro x st1
    rw [h]
    exact tracePixel_nil K w.position w.mode y x st1
  unfold ray_trace
  rw [hrows]
  rfl

/-! ## init and keyboard -/

/-- The function init renders the scene of its eight new spheres, once. -/
theorem init_eq (K : RayClasses) (RAND_MAX : ℕ) (rand : ℕ → ℕ) (w : World) :
    init K RAND_MAX rand w = .ok
      { image := fun y x => pixelValue K (initScene RAND_MAX rand) w.position w.mode x y
        position := w.position
        mode := w.mode
        spheres := initScene RAND_MAX rand
        calls := w.calls ++ [Call.srand, Call.glClearColor, Call.ray_trace] } := by
  have h : init K RAND_MAX rand w = ray_trace K
      { w with
        calls := w.calls ++ [Call.srand, Call.glClearColor]
        spheres := initScene RAND_MAX rand } := rfl
  rw [h, ray_trace_eq _ _ (by simp [initScene])]
  simp

theorem bind_ok {α β : Type} (a : α) (f : α → Except Error β) :
    (Except.ok a : Except Error α).bind f = f a :=
  rfl

theorem map_ok {α β : Type} (a : α) (f : α → β) :
    (Except.ok a : Except Error α).map f = .ok (f a) :=
  rfl

/-- The update of the globals on a key: it does not throw, keeps the scene
non-empty, moves the camera by stepPosition, and renders only on reset. -/
theorem keyAction_ok (K : RayClasses) (RAND_MAX : ℕ) (rand : ℕ → ℕ) (key : Char) (w : World)
    (h : w.spheres ≠ [] ∨ key = 'r') :
    ∃ w1, keyAction K RAND_MAX rand key w = .ok w1 ∧ w1.spheres ≠ [] ∧
      w1.position = stepPosition key w.position ∧
      w1.calls = if key = 'r' then
          w.calls ++ [Call.srand, Call.glClearColor, Call.ray_trace]
        else w.calls := by
  unfold keyAction stepPosition
  by_cases hr : key = 'r'
  · rw [if_pos hr, if_pos hr, if_pos hr, init_eq]
    exact ⟨_, rfl, by simp [initScene], rfl, rfl⟩
  · have hs : w.spheres ≠ [] := h.resolve_right hr
    rw [if_neg hr, if_neg hr, if_neg hr]
    by_cases h1 : key = '+' ∧ w.position < 5
    · rw [if_pos h1, if_pos h1]
      exact ⟨_, rfl, hs, rfl, rfl⟩
    · rw [if_neg h1, if_neg h1]
      by_cases h2 : key = '-' ∧ w.position > 1
      · rw [if_pos h2, if_pos h2]
        exact ⟨_, rfl, hs, rfl, rfl⟩
      · rw [if_neg h2, if_neg h2]
        by_cases h3 : key = 'n'
        · rw [if_pos h3]
          exact ⟨_, rfl, hs, rfl, rfl⟩
        · rw [if_neg h3]
          by_cases h4 : key = 'p'
          · rw [if_pos h4]
            exact ⟨_, rfl, hs, rfl, rfl⟩
          · rw [if_neg h4]
            exact ⟨_, rfl, hs, rfl, rfl⟩

/-- A key event other than quit: keyboard returns, and after the update of the
key it calls ray_trace and then glutPostRedisplay. -/
theorem keyboard_ok (K : RayClasses) (RAND_MAX : ℕ) (rand : ℕ → ℕ) (key : Char) (w : World)
    (hq : key ≠ 'q') (h : w.spheres ≠ [] ∨ key = 'r') :
    ∃ w2, keyboard K RAND_MAX rand key w = .ok (some w2) ∧ w2.spheres ≠ [] ∧
      w2.position = stepPosition key w.position ∧
      w2.calls = (if key = 'r' then
          w.calls ++ [Call.srand, Call.glClearColor, Call.ray_trace]
        else w.calls) ++ [Call.ray_trace, Call.glutPostRedisplay] := by
  obtain ⟨w1, h1, hs1, hp1, hc1⟩ := keyAction_ok K RAND_MAX rand key w h
  unfold keyboard
  rw [if_neg hq, h1]
  rw [bind_ok, ray_trace_eq K w1 hs1, map_ok]
  exact ⟨_, rfl, hs1, hp1, by simp [hc1]⟩

/-- The start of main renders the generated scene with the camera at distance 3. -/
theorem startup_ok (K : RayClasses) (RAND_MAX : ℕ) (rand : ℕ → ℕ) :
    ∃ w0, startup K RAND_MAX rand = .ok w0 ∧ w0.spheres ≠ [] ∧ w0.position = 3 := by
  unfold startup
  rw [init_eq]
  exact ⟨_, rfl, by simp [initScene], rfl⟩

/-- A run of key events without quit returns, with the camera distance of
positionAfter. -/
theorem runKeys_ok (K : RayClasses) (RAND_MAX : ℕ) (events : List (Char × (ℕ → ℕ))) :
    ∀ w : World, (∀ e ∈ events, e.1 ≠ 'q') → w.spheres ≠ [] →
      ∃ w1, runKeys K RAND_MAX events w = .ok (some w1) ∧ w1.spheres ≠ [] ∧
        w1.position = positionAfter (events.map Prod.fst) w.position := by
  induction events with
  | nil =>
    intro w _ hs
    exact ⟨w, rfl, hs, rfl⟩
  | cons e rest ih =>
    intro w hq hs
    obtain ⟨w2, h2, hs2, hp2, _⟩ := keyboard_ok K RAND_MAX e.2 e.1 w
      (hq e (List.mem_cons_self _ _)) (Or.inl hs)
    obtain ⟨w3, h3, hs3, hp3⟩ := ih w2 (fun e1 he1 => hq e1 (List.mem_cons_of_mem _ he1)) hs2
    refine ⟨w3, ?_, hs3, ?_⟩
    · simp only [runKeys, h2, Except.bind, h3]
    · rw [hp3, hp2]
      rfl

/-- One key event keeps the camera distance strictly between 10/11 and 11/2. -/
theorem stepPosition_range (key : Char) (position : ℚ) (h1 : 10 / 11 < position)
    (h2 : position < 11 / 2) :
    10 / 11 < stepPosition key position ∧ stepPosition key position < 11 / 2 := by
  unfold stepPosition
  split
  · exact ⟨h1, h2⟩
  · split
    · rename_i h
      constructor <;> linarith [h.2]
    · split
      · rename_i h
        have h3 := h.2
        constructor
        · rw [lt_div_iff₀ (by norm_num)]
          linarith
        · rw [div_lt_iff₀ (by norm_num)]
          linarith
      · exact ⟨h1, h2⟩

theorem positionAfter_range (keys : List Char) :
    ∀ position : ℚ, 10 / 11 < position → position < 11 / 2 →
      10 / 11 < positionAfter keys position ∧ positionAfter keys position < 11 / 2 := by
  induction keys with
  | nil =>
    intro position h1 h2
    exact ⟨h1, h2⟩
  | cons key rest ih =>
    intro position h1 h2
    obtain ⟨h3, h4⟩ := stepPosition_range key position h1 h2
    exact ih _ h3 h4

/-! ## Closest-hit selection (C1) -/

/-- C1: when some sphere of the scene is hit by the camera ray of a pixel at a
distance from the sample point below the initial bound 999.99, the scan of
ray_trace selects a sphere that is hit, closestDistance is the distance of its
hit point from the sample point, no hit sphere is at a smaller distance, and
every hit sphere at the same distance has an index at least the selected one. -/
theorem closest_hit_selection (K : RayClasses) (spheres : List Sphere) (position : ℚ)
    (x y : ℕ)
    (h : ∃ (i : ℕ) (s : Sphere) (p : Point3D) (n : Vector3D), spheres[i]? = some s ∧
      K.get_intersection s.sphere (cameraRay K position x y) = some (p, n) ∧
      K.distance (samplePoint x y) p < 99999 / 100) :
    ∃ (s : Sphere) (p : Point3D) (n : Vector3D),
      spheres[(closestHit K spheres position x y).intersectSphere]? = some s ∧
      K.get_intersection s.sphere (cameraRay K position x y) = some (p, n) ∧
      (closestHit K spheres position x y).closestDistance = K.distance (samplePoint x y) p ∧
      ∀ (j : ℕ) (t : Sphere) (q : Point3D) (m : Vector3D), spheres[j]? = some t →
        K.get_intersection t.sphere (cameraRay K position x y) = some (q, m) →
        K.distance (samplePoint x y) p ≤ K.distance (samplePoint x y) q ∧
        (K.distance (samplePoint x y) q = K.distance (samplePoint x y) p →
          (closestHit K spheres position x y).intersectSphere ≤ j) := by
  obtain ⟨i, s, p, n, hi, hs, hlt⟩ := h
  unfold closestHit
  rcases scanFrom_spec K (cameraRay K position x y) (samplePoint x y) spheres 0 Scan.start with
    ⟨_, _, h3⟩ | ⟨j, t, q, m, hj, ht, hidx, hd, _, hmin⟩
  · have := h3 i s p n hi hs
    simp only [Scan.start] at this
    exact absurd hlt (not_lt_of_le this)
  · refine ⟨t, q, m, ?_, ht, hd, ?_⟩
    · rw [hidx, Nat.zero_add]
      exact hj
    · intro j1 t1 q1 m1 hj1 ht1
      rw [hidx, Nat.zero_add]
      exact hmin j1 t1 q1 m1 hj1 ht1

/-- C1 at the axis scene, centre pixel, camera distance 3, where sphere 1 is hit
at (0, 0, 1/10), at distance 1/10 from the sample point. -/
theorem closest_hit_selection_witness :
    ∃ (s : Sphere) (p : Point3D) (n : Vector3D),
      sceneAxis[(closestHit specClasses sceneAxis 3 450 450).intersectSphere]? = some s ∧
      specClasses.get_intersection s.sphere (cameraRay specClasses 3 450 450) = some (p, n) ∧
      (closestHit specClasses sceneAxis 3 450 450).closestDistance =
        specClasses.distance (samplePoint 450 450) p ∧
      ∀ (j : ℕ) (t : Sphere) (q : Point3D) (m : Vector3D), sceneAxis[j]? = some t →
        specClasses.get_intersection t.sphere (cameraRay specClasses 3 450 450) = some (q, m) →
        specClasses.distance (samplePoint 450 450) p ≤ specClasses.distance (samplePoint 450 450) q ∧
        (specClasses.distance (samplePoint 450 450) q = specClasses.distance (samplePoint 450 450) p →
          (closestHit specClasses sceneAxis 3 450 450).intersectSphere ≤ j) :=
  closest_hit_selection specClasses sceneAxis 3 450 450
    ⟨1, Sphere.new 0 0 (6 / 10) (5 / 10) 0 200 0, ⟨0, 0, 1 / 10⟩, ⟨0, 0, -1⟩,
      by decide!, by decide!, by decide!⟩

/-! ## Pixels without a hit (C3, C4) -/

/-- When the camera ray of a pixel hits no sphere of a non-empty scene, traceRay
reports no hit. -/
theorem traceRay_miss (K : RayClasses) (spheres : List Sphere) (position : ℚ) (x y : ℕ)
    (a : Phong) (hs : spheres ≠ [])
    (hmiss : ∀ s ∈ spheres, K.get_intersection s.sphere (cameraRay K position x y) = none) :
    ∃ sh, traceRay K spheres position x y a = .ok (sh, none) := by
  have hlt := closestHit_lt K spheres position x y hs
  obtain ⟨sel, hsel⟩ : ∃ sel, spheres[(closestHit K spheres position x y).intersectSphere]?
      = some sel := ⟨_, List.getElem?_eq_getElem hlt⟩
  have hnone := hmiss sel (List.getElem?_mem hsel)
  unfold traceRay
  simp only [hsel, hnone]
  exact ⟨_, rfl⟩

/-- C3: on a non-empty scene, for any camera distance and mode, a pixel whose
camera ray hits no sphere is left at the background colour (0, 0, 0) by
ray_trace; its pixel body ends with no hit, so that no colour of a sphere
(that of the default selection, index 0, included) is shaded into it. -/
theorem miss_gives_background (K : RayClasses) (w : World) (y : Fin YDIM) (x : Fin XDIM)
    (hs : w.spheres ≠ [])
    (hmiss : ∀ s ∈ w.spheres,
      K.get_intersection s.sphere (cameraRay K w.position x y) = none) :
    (∃ w1, ray_trace K w = .ok w1 ∧ w1.image y x = (0, 0, 0)) ∧
    ∀ st : Phong × Image, ∃ sh,
      tracePixel K w.spheres w.position w.mode y x st =
        .ok (sh, setPixel st.2 y x (0, 0, 0)) := by
  constructor
  · rw [ray_trace_eq K w hs]
    refine ⟨_, rfl, ?_⟩
    obtain ⟨sh, hsh⟩ :=
      traceRay_miss K w.spheres w.position x y (shaderSetup K w.position) hs hmiss
    show pixelValue K w.spheres w.position w.mode x y = (0, 0, 0)
    unfold pixelValue
    rw [hsh]
  · intro st
    obtain ⟨sh, hsh⟩ := traceRay_miss K w.spheres w.position x y st.1 hs hmiss
    refine ⟨sh, ?_⟩
    unfold tracePixel
    rw [hsh]

/-- C3 at the axis scene in mode phong, pixel (0, 0): the corner ray misses all
eight spheres. -/
theorem miss_gives_background_witness :
    (worldOf sceneAxis "phong").spheres ≠ [] ∧
    (∀ s ∈ (worldOf sceneAxis "phong").spheres, specClasses.get_intersection s.sphere
      (cameraRay specClasses (worldOf sceneAxis "phong").position
        ((⟨0, by decide⟩ : Fin XDIM) : ℕ) ((⟨0, by decide⟩ : Fin YDIM) : ℕ)) = none) ∧
    ((∃ w1, ray_trace specClasses (worldOf sceneAxis "phong") = .ok w1 ∧
      w1.image ⟨0, by decide⟩ ⟨0, by decide⟩ = (0, 0, 0)) ∧
    ∀ st : Phong × Image, ∃ sh,
      tracePixel specClasses (worldOf sceneAxis "phong").spheres
        (worldOf sceneAxis "phong").position (worldOf sceneAxis "phong").mode
        ⟨0, by decide⟩ ⟨0, by decide⟩ st = .ok (sh, setPixel st.2 ⟨0, by decide⟩ ⟨0, by decide⟩
          (0, 0, 0))) :=
  ⟨by decide, by decide!,
    miss_gives_background specClasses (worldOf sceneAxis "phong") ⟨0, by decide⟩ ⟨0, by decide⟩
      (by decide) (by decide!)⟩

/-- C4, counterexample: on the scene with no spheres ray_trace throws
out_of_range, from `spheres.at(0)` at its first pixel. -/
theorem empty_scene_throws :
    ray_trace specClasses (worldOf [] "phong") = .error .out_of_range :=
  ray_trace_nil specClasses (worldOf [] "phong") rfl

/-- C4, amended: on every non-empty scene, for every camera distance and mode,
ray_trace returns without an exception; at a pixel whose camera ray hits no
sphere the selection is the default index 0, which is an index of the scene,
and the pixel body ends with no hit. -/
theorem no_hit_not_fatal (K : RayClasses) (w : World) (hs : w.spheres ≠ []) :
    (∃ w1, ray_trace K w = .ok w1) ∧
    ∀ (y : Fin YDIM) (x : Fin XDIM),
      (∀ s ∈ w.spheres, K.get_intersection s.sphere (cameraRay K w.position x y) = none) →
      (closestHit K w.spheres w.position x y).intersectSphere = 0 ∧
      (∃ s0, w.spheres[0]? = some s0) ∧
      ∀ st : Phong × Image, ∃ sh,
        tracePixel K w.spheres w.position w.mode y x st =
          .ok (sh, setPixel st.2 y x (0, 0, 0)) := by
  refine ⟨⟨_, ray_trace_eq K w hs⟩, ?_⟩
  intro y x hmiss
  refine ⟨closestHit_miss K w.spheres w.position x y hmiss, ?_, ?_⟩
  · exact ⟨_, List.getElem?_eq_getElem (List.length_pos.mpr hs)⟩
  · intro st
    obtain ⟨sh, hsh⟩ := traceRay_miss K w.spheres w.position x y st.1 hs hmiss
    refine ⟨sh, ?_⟩
    unfold tracePixel
    rw [hsh]

/-- C4 amended, at the axis scene in mode normal. -/
theorem no_hit_not_fatal_witness :
    (worldOf sceneAxis "normal").spheres ≠ [] ∧
    ((∃ w1, ray_trace specClasses (worldOf sceneAxis "normal") = .ok w1) ∧
    ∀ (y : Fin YDIM) (x : Fin XDIM),
      (∀ s ∈ (worldOf sceneAxis "normal").spheres, specClasses.get_intersection s.sphere
        (cameraRay specClasses (worldOf sceneAxis "normal").position x y) = none) →
      (closestHit specClasses (worldOf sceneAxis "normal").spheres
        (worldOf sceneAxis "normal").position x y).intersectSphere = 0 ∧
      (∃ s0, (worldOf sceneAxis "normal").spheres[0]? = some s0) ∧
      ∀ st : Phong × Image, ∃ sh,
        tracePixel specClasses (worldOf sceneAxis "normal").spheres
          (worldOf sceneAxis "normal").position (worldOf sceneAxis "normal").mode y x st =
          .ok (sh, setPixel st.2 y x (0, 0, 0))) :=
  ⟨by decide, no_hit_not_fatal specClasses (worldOf sceneAxis "normal") (by decide)⟩

/-! ## Re-rendering (C9) -/

/-- C9: on a non-empty scene the frame buffer after ray_trace is determined by
the scene, the camera distance and the mode: two passes from worlds that agree
on these three yield the same image whatever the images before, a second pass
yields the image of the first again, and every pixel holds pixelValue, which
is computed without reading the frame buffer. -/
theorem rerender_idempotent (K : RayClasses) (w1 w2 : World) (hs : w1.spheres ≠ [])
    (hsp : w2.spheres = w1.spheres) (hp : w2.position = w1.position)
    (hm : w2.mode = w1.mode) :
    ∃ v1 v2 v3, ray_trace K w1 = .ok v1 ∧ ray_trace K w2 = .ok v2 ∧ v1.image = v2.image ∧
      ray_trace K v1 = .ok v3 ∧ v3.image = v1.image ∧
      ∀ (y : Fin YDIM) (x : Fin XDIM),
        v1.image y x = pixelValue K w1.spheres w1.position w1.mode x y := by
  have hs2 : w2.spheres ≠ [] := by rw [hsp]; exact hs
  refine ⟨_, _, _, ray_trace_eq K w1 hs, ray_trace_eq K w2 hs2, ?_,
    ray_trace_eq K _ hs, rfl, fun _ _ => rfl⟩
  simp only [hsp, hp, hm]

/-- C9 at the shadow scene in mode phong, from a black and from a white frame
buffer. -/
theorem rerender_idempotent_witness :
    ∃ v1 v2 v3, ray_trace specClasses (worldOf sceneShadow "phong") = .ok v1 ∧
      ray_trace specClasses
        { worldOf sceneShadow "phong" with image := fun _ _ => (255, 255, 255) } = .ok v2 ∧
      v1.image = v2.image ∧ ray_trace specClasses v1 = .ok v3 ∧ v3.image = v1.image ∧
      ∀ (y : Fin YDIM) (x : Fin XDIM), v1.image y x =
        pixelValue specClasses (worldOf sceneShadow "phong").spheres
          (worldOf sceneShadow "phong").position (worldOf sceneShadow "phong").mode x y :=
  rerender_idempotent specClasses (worldOf sceneShadow "phong")
    { worldOf sceneShadow "phong" with image := fun _ _ => (255, 255, 255) }
    (by decide) rfl rfl rfl

/-! ## Bytes of the normal display (C10) -/

/-- A value in [0, 254] converts to the byte of its integral part. -/
theorem toByte_of_range (q : ℚ) (h0 : 0 ≤ q) (h1 : q ≤ 254) :
    (toByte q : ℤ) = truncate q ∧ toByte q ≤ 254 ∧ (toByte q : ℚ) ≤ q ∧ q < toByte q + 1 := by
  have ht : truncate q = ⌊q⌋ := by
    unfold truncate
    rw [if_pos h0]
    rfl
  have hf0 : 0 ≤ ⌊q⌋ := Int.floor_nonneg.mpr h0
  have hf1 : ⌊q⌋ ≤ 254 := by
    have : (⌊q⌋ : ℚ) ≤ 254 := le_trans (Int.floor_le q) h1
    exact_mod_cast this
  have hmod : ⌊q⌋ % 256 = ⌊q⌋ := Int.emod_eq_of_lt hf0 (by omega)
  have hb : (toByte q : ℤ) = ⌊q⌋ := by
    unfold toByte
    rw [ht, hmod]
    exact Int.toNat_of_nonneg hf0
  refine ⟨by rw [hb, ht], by omega, ?_, ?_⟩
  · have : ((toByte q : ℤ) : ℚ) = (⌊q⌋ : ℚ) := by rw [hb]
    have h2 := Int.floor_le q
    push_cast at this
    linarith
  · have : ((toByte q : ℤ) : ℚ) = (⌊q⌋ : ℚ) := by rw [hb]
    have h2 := Int.lt_floor_add_one q
    push_cast at this
    linarith

/-- C10: for a normal with every component in [-1, 1] the three values
127 + 127 * component computed in mode normal lie in [0, 254], and each byte
stored is the truncated value itself, at most 254: the reduction modulo 256
does not change it. -/
theorem normal_bytes_no_wrap (n : Vector3D) (hx : -1 ≤ n.vx ∧ n.vx ≤ 1)
    (hy : -1 ≤ n.vy ∧ n.vy ≤ 1) (hz : -1 ≤ n.vz ∧ n.vz ≤ 1) :
    (0 ≤ 127 + n.vx * 127 ∧ 127 + n.vx * 127 ≤ 254 ∧
      ((normalBytes n).1 : ℤ) = truncate (127 + n.vx * 127) ∧ (normalBytes n).1 ≤ 254) ∧
    (0 ≤ 127 + n.vy * 127 ∧ 127 + n.vy * 127 ≤ 254 ∧
      ((normalBytes n).2.1 : ℤ) = truncate (127 + n.vy * 127) ∧ (normalBytes n).2.1 ≤ 254) ∧
    (0 ≤ 127 + n.vz * 127 ∧ 127 + n.vz * 127 ≤ 254 ∧
      ((normalBytes n).2.2 : ℤ) = truncate (127 + n.vz * 127) ∧ (normalBytes n).2.2 ≤ 254) := by
  have bx0 : 0 ≤ 127 + n.vx * 127 := by linarith [hx.1]
  have bx1 : 127 + n.vx * 127 ≤ 254 := by linarith [hx.2]
  have by0 : 0 ≤ 127 + n.vy * 127 := by linarith [hy.1]
  have by1 : 127 + n.vy * 127 ≤ 254 := by linarith [hy.2]
  have bz0 : 0 ≤ 127 + n.vz * 127 := by linarith [hz.1]
  have bz1 : 127 + n.vz * 127 ≤ 254 := by linarith [hz.2]
  obtain ⟨tx, ux, _, _⟩ := toByte_of_range _ bx0 bx1
  obtain ⟨ty, uy, _, _⟩ := toByte_of_range _ by0 by1
  obtain ⟨tz, uz, _, _⟩ := toByte_of_range _ bz0 bz1
  exact ⟨⟨bx0, bx1, tx, ux⟩, ⟨by0, by1, ty, uy⟩, ⟨bz0, bz1, tz, uz⟩⟩

/-- C10 at the normal (0, 0, -1): the values are 127, 127 and 0. -/
theorem normal_bytes_no_wrap_witness :
    normalBytes ⟨0, 0, -1⟩ = (127, 127, 0) ∧
    (0 ≤ 127 + (⟨0, 0, -1⟩ : Vector3D).vx * 127 ∧ 127 + (⟨0, 0, -1⟩ : Vector3D).vx * 127 ≤ 254 ∧
      ((normalBytes ⟨0, 0, -1⟩).1 : ℤ) = truncate (127 + (⟨0, 0, -1⟩ : Vector3D).vx * 127) ∧
      (normalBytes ⟨0, 0, -1⟩).1 ≤ 254) ∧
    (0 ≤ 127 + (⟨0, 0, -1⟩ : Vector3D).vy * 127 ∧ 127 + (⟨0, 0, -1⟩ : Vector3D).vy * 127 ≤ 254 ∧
      ((normalBytes ⟨0, 0, -1⟩).2.1 : ℤ) = truncate (127 + (⟨0, 0, -1⟩ : Vector3D).vy * 127) ∧
      (normalBytes ⟨0, 0, -1⟩).2.1 ≤ 254) ∧
    (0 ≤ 127 + (⟨0, 0, -1⟩ : Vector3D).vz * 127 ∧ 127 + (⟨0, 0, -1⟩ : Vector3D).vz * 127 ≤ 254 ∧
      ((normalBytes ⟨0, 0, -1⟩).2.2 : ℤ) = truncate (127 + (⟨0, 0, -1⟩ : Vector3D).vz * 127) ∧
      (normalBytes ⟨0, 0, -1⟩).2.2 ≤ 254) :=
  ⟨by decide!, normal_bytes_no_wrap ⟨0, 0, -1⟩ (by decide!) (by decide!) (by decide!)⟩

/-! ## The shadow test (C5) -/

/-- C5: when the camera ray of a pixel hits the selected sphere at p, the shader
handed to the display step carries the colour of the selected sphere, with the
coefficients (0.2, 0, 0, 0) when a sphere at an index other than the selected
one is hit by the ray from p along the light direction, and (0.3, 0.4, 0.4, 10)
when none is, whatever material the shader carried from the pixels before. -/
theorem shadow_test (K : RayClasses) (spheres : List Sphere) (position : ℚ) (x y : ℕ)
    (shader : Phong) (sel : Sphere) (p : Point3D) (n : Vector3D)
    (hsel : spheres[(closestHit K spheres position x y).intersectSphere]? = some sel)
    (hhit : K.get_intersection sel.sphere (cameraRay K position x y) = some (p, n)) :
    ∃ sh p1 n1, traceRay K spheres position x y shader = .ok (sh, some (sel, p1, n1)) ∧
      sh.objColor = sel.color ∧
      ((∃ (i : ℕ) (t : Sphere), spheres[i]? = some t ∧
          i ≠ (closestHit K spheres position x y).intersectSphere ∧
          K.get_intersection t.sphere (K.raySetDir p (lightDir K)) ≠ none) →
        sh.Ka = 2 / 10 ∧ sh.Kd = 0 ∧ sh.Ks = 0 ∧ sh.Kp = 0) ∧
      ((¬ ∃ (i : ℕ) (t : Sphere), spheres[i]? = some t ∧
          i ≠ (closestHit K spheres position x y).intersectSphere ∧
          K.get_intersection t.sphere (K.raySetDir p (lightDir K)) ≠ none) →
        sh.Ka = 3 / 10 ∧ sh.Kd = 4 / 10 ∧ sh.Ks = 4 / 10 ∧ sh.Kp = 10) := by
  have hloop := shadowFrom_shader K (K.raySetDir p (lightDir K))
    (closestHit K spheres position x y).intersectSphere sel.color spheres 0
    (shader.SetObject sel.color (3 / 10) (4 / 10) (4 / 10) 10, p, n)
  have hiff : (∃ (j : ℕ) (t : Sphere), spheres[j]? = some t ∧
        (closestHit K spheres position x y).intersectSphere ≠ 0 + j ∧
        K.get_intersection t.sphere (K.raySetDir p (lightDir K)) ≠ none) ↔
      ∃ (i : ℕ) (t : Sphere), spheres[i]? = some t ∧
        i ≠ (closestHit K spheres position x y).intersectSphere ∧
        K.get_intersection t.sphere (K.raySetDir p (lightDir K)) ≠ none := by
    constructor
    · rintro ⟨j, t, h1, h2, h3⟩
      exact ⟨j, t, h1, fun h => h2 (by omega), h3⟩
    · rintro ⟨j, t, h1, h2, h3⟩
      exact ⟨j, t, h1, fun h => h2 (by omega), h3⟩
  rw [hiff] at hloop
  unfold traceRay
  simp only [hsel, hhit]
  refine ⟨_, _, _, rfl, ?_, ?_, ?_⟩
  · by_cases hocc : ∃ (i : ℕ) (t : Sphere), spheres[i]? = some t ∧
        i ≠ (closestHit K spheres position x y).intersectSphere ∧
        K.get_intersection t.sphere (K.raySetDir p (lightDir K)) ≠ none
    · rw [hloop.1 hocc]
      rfl
    · rw [hloop.2 hocc]
      rfl
  · intro hocc
    rw [hloop.1 hocc]
    exact ⟨rfl, rfl, rfl, rfl⟩
  · intro hocc
    rw [hloop.2 hocc]
    exact ⟨rfl, rfl, rfl, rfl⟩

/-- C5 at the shadow scene, centre pixel: sphere 0 is selected and hit at
(0, 0, 1) with normal (0, 0, -1). -/
theorem shadow_test_witness :
    ∃ sh p1 n1, traceRay specClasses sceneShadow 3 450 450 default =
        .ok (sh, some (Sphere.new 0 0 (15 / 10) (5 / 10) 200 0 0, p1, n1)) ∧
      sh.objColor = (Sphere.new 0 0 (15 / 10) (5 / 10) 200 0 0).color ∧
      ((∃ (i : ℕ) (t : Sphere), sceneShadow[i]? = some t ∧
          i ≠ (closestHit specClasses sceneShadow 3 450 450).intersectSphere ∧
          specClasses.get_intersection t.sphere
            (specClasses.raySetDir ⟨0, 0, 1⟩ (lightDir specClasses)) ≠ none) →
        sh.Ka = 2 / 10 ∧ sh.Kd = 0 ∧ sh.Ks = 0 ∧ sh.Kp = 0) ∧
      ((¬ ∃ (i : ℕ) (t : Sphere), sceneShadow[i]? = some t ∧
          i ≠ (closestHit specClasses sceneShadow 3 450 450).intersectSphere ∧
          specClasses.get_intersection t.sphere
            (specClasses.raySetDir ⟨0, 0, 1⟩ (lightDir specClasses)) ≠ none) →
        sh.Ka = 3 / 10 ∧ sh.Kd = 4 / 10 ∧ sh.Ks = 4 / 10 ∧ sh.Kp = 10) :=
  shadow_test specClasses sceneShadow 3 450 450 default
    (Sphere.new 0 0 (15 / 10) (5 / 10) 200 0 0) ⟨0, 0, 1⟩ ⟨0, 0, -1⟩ (by decide!) (by decide!)

/-! ## The normal display under a shadow (C6) -/

/-- C6, evaluated at a failing input: in the shadow scene, mode normal, camera
distance 3, the camera ray of pixel (450, 450) selects sphere 0 and hits it at
(0, 0, 1) with normal (0, 0, -1), whose bytes are (127, 127, 0); sphere 1
occludes the light, and ray_trace stores (200, 200, 200), the bytes of the
normal of sphere 1 where the ray to the light hits it. -/
theorem normal_mode_shows_occluder :
    ∃ w1, ray_trace specClasses (worldOf sceneShadow "normal") = .ok w1 ∧
      w1.image ⟨450, by decide⟩ ⟨450, by decide⟩ = (200, 200, 200) ∧
      (closestHit specClasses sceneShadow 3 450 450).intersectSphere = 0 ∧
      specClasses.get_intersection (Sphere.new 0 0 (15 / 10) (5 / 10) 200 0 0).sphere
        (cameraRay specClasses 3 450 450) = some (⟨0, 0, 1⟩, ⟨0, 0, -1⟩) ∧
      normalBytes ⟨0, 0, -1⟩ = (127, 127, 0) ∧
      (∀ s ∈ sceneShadow, inGeneratorRange s) := by
  rw [ray_trace_eq specClasses (worldOf sceneShadow "normal") (by decide)]
  refine ⟨_, rfl, ?_, by decide!, by decide!, by decide!, by decide!⟩
  show pixelValue specClasses sceneShadow 3 "normal" 450 450 = (200, 200, 200)
  decide!

/-! ## Nearest intersection along the camera ray (C2) -/

/-- C7, counterexample: from the start of the program six presses of + are all
accepted and leave the camera at distance 3 * 1.1^6 = 5.314683, above 5. -/
theorem six_plus_leaves_range :
    ∃ w0 w, startup specClasses 2147483647 (fun _ => 0) = .ok w0 ∧ w0.position = 3 ∧
      runKeys specClasses 2147483647 sixPlus w0 = .ok (some w) ∧
      w.position = 5314683 / 1000000 ∧ ¬ (1 ≤ w.position ∧ w.position ≤ 5) := by
  obtain ⟨w0, h0, hs0, hp0⟩ := startup_ok specClasses 2147483647 (fun _ => 0)
  obtain ⟨w, hw, _, hp⟩ := runKeys_ok specClasses 2147483647 sixPlus w0 (by decide) hs0
  have hpos : w.position = 5314683 / 1000000 := by
    rw [hp, hp0]
    decide!
  refine ⟨w0, w, h0, hp0, hw, hpos, ?_⟩
  rw [hpos]
  norm_num

/-- C7, amended: from the start of the program, after every finite sequence of
key events other than quit, keyboard has returned each time and the camera
distance lies strictly between 10/11 and 11/2; a key + at a distance below 5
multiplies the distance by 1.1, a key - at a distance above 1 divides it by
1.1, and every other event leaves it unchanged. -/
theorem camera_distance_range (K : RayClasses) (RAND_MAX : ℕ) (rand0 : ℕ → ℕ)
    (events : List (Char × (ℕ → ℕ))) (hq : ∀ e ∈ events, e.1 ≠ 'q') :
    (∃ w0 w, startup K RAND_MAX rand0 = .ok w0 ∧ w0.position = 3 ∧
      runKeys K RAND_MAX events w0 = .ok (some w) ∧
      10 / 11 < w.position ∧ w.position < 11 / 2) ∧
    ∀ (key : Char) (rand : ℕ → ℕ) (w1 : World), key ≠ 'q' → w1.spheres ≠ [] →
      ∃ w2, keyboard K RAND_MAX rand key w1 = .ok (some w2) ∧
        w2.position =
          if key = '+' ∧ w1.position < 5 then w1.position * (11 / 10)
          else if key = '-' ∧ w1.position > 1 then w1.position / (11 / 10)
          else w1.position := by
  constructor
  · obtain ⟨w0, h0, hs0, hp0⟩ := startup_ok K RAND_MAX rand0
    obtain ⟨w, hw, _, hp⟩ := runKeys_ok K RAND_MAX events w0 hq hs0
    have hr := positionAfter_range (events.map Prod.fst) w0.position
      (by rw [hp0]; norm_num) (by rw [hp0]; norm_num)
    rw [← hp] at hr
    exact ⟨w0, w, h0, hp0, hw, hr.1, hr.2⟩
  · intro key rand w1 hkey hs1
    obtain ⟨w2, h2, _, hp2, _⟩ := keyboard_ok K RAND_MAX rand key w1 hkey (Or.inl hs1)
    refine ⟨w2, h2, ?_⟩
    rw [hp2]
    unfold stepPosition
    by_cases hr : key = 'r'
    · subst hr
      simp
    · rw [if_neg hr]

/-- C7 amended, at six presses of +. -/
theorem camera_distance_range_witness :
    (∀ e ∈ sixPlus, e.1 ≠ 'q') ∧
    ((∃ w0 w, startup specClasses 2147483647 (fun _ => 0) = .ok w0 ∧ w0.position = 3 ∧
      runKeys specClasses 2147483647 sixPlus w0 = .ok (some w) ∧
      10 / 11 < w.position ∧ w.position < 11 / 2) ∧
    ∀ (key : Char) (rand : ℕ → ℕ) (w1 : World), key ≠ 'q' → w1.spheres ≠ [] →
      ∃ w2, keyboard specClasses 2147483647 rand key w1 = .ok (some w2) ∧
        w2.position =
          if key = '+' ∧ w1.position < 5 then w1.position * (11 / 10)
          else if key = '-' ∧ w1.position > 1 then w1.position / (11 / 10)
          else w1.position) :=
  ⟨by decide, camera_distance_range specClasses 2147483647 (fun _ => 0) sixPlus (by decide)⟩

/-! ## Render passes per key event (C8) -/

/-- C8, evaluated at the failing input, the key r: keyboard calls init, which
reseeds, clears and calls ray_trace, and then calls ray_trace again before
glutPostRedisplay: two render passes for the one event. -/
theorem reset_renders_twice (K : RayClasses) (RAND_MAX : ℕ) (rand : ℕ → ℕ) (w : World) :
    ∃ w2, keyboard K RAND_MAX rand 'r' w = .ok (some w2) ∧
      w2.calls = w.calls ++ [Call.srand, Call.glClearColor, Call.ray_trace, Call.ray_trace,
        Call.glutPostRedisplay] ∧
      (w2.calls.drop w.calls.length).count Call.ray_trace = 2 := by
  obtain ⟨w2, h2, _, _, hc⟩ := keyboard_ok K RAND_MAX rand 'r' w (by decide) (Or.inr rfl)
  rw [if_pos rfl] at hc
  have hc2 : w2.calls = w.calls ++ [Call.srand, Call.glClearColor, Call.ray_trace,
      Call.ray_trace, Call.glutPostRedisplay] := by
    rw [hc]
    simp
  refine ⟨w2, h2, hc2, ?_⟩
  rw [hc2, List.drop_left]
  decide

/-- The other key events (all but quit and reset) render exactly once: keyboard
calls ray_trace and then glutPostRedisplay. -/
theorem other_keys_render_once (K : RayClasses) (RAND_MAX : ℕ) (rand : ℕ → ℕ) (key : Char)
    (w : World) (hq : key ≠ 'q') (hr : key ≠ 'r') (hs : w.spheres ≠ []) :
    ∃ w2, keyboard K RAND_MAX rand key w = .ok (some w2) ∧
      w2.calls = w.calls ++ [Call.ray_trace, Call.glutPostRedisplay] := by
  obtain ⟨w2, h2, _, _, hc⟩ := keyboard_ok K RAND_MAX rand key w hq (Or.inl hs)
  rw [if_neg hr] at hc
  exact ⟨w2, h2, hc⟩

/-! ## The scenes of init -/

/-- Every sphere pushed by init lies in the generator ranges, for results of
rand() between 0 and RAND_MAX. -/
theorem newSphere_inGeneratorRange (RAND_MAX : ℕ) (rand : ℕ → ℕ) (i : ℕ) (hR : 0 < RAND_MAX)
    (hr : ∀ k, rand k ≤ RAND_MAX) : inGeneratorRange (newSphere RAND_MAX rand i) := by
  have hpos : (0 : ℚ) < (RAND_MAX : ℚ) := by exact_mod_cast hR
  have hu : ∀ k, (0 : ℚ) ≤ (rand k : ℚ) / (RAND_MAX : ℚ) ∧ (rand k : ℚ) / (RAND_MAX : ℚ) ≤ 1 := by
    intro k
    constructor
    · positivity
    · rw [div_le_one hpos]
      exact_mod_cast hr k
  have hm : ∀ (k : ℕ) (a b : ℚ), myrand RAND_MAX (rand k) a b =
      (rand k : ℚ) / (RAND_MAX : ℚ) * (b - a) + a := by
    intro k a b
    unfold myrand
    ring
  unfold inGeneratorRange newSphere Sphere.new
  simp only [hm]
  have h0 := hu (7 * i)
  have h1 := hu (7 * i + 1)
  have h2 := hu (7 * i + 2)
  have h3 := hu (7 * i + 3)
  have h4 := hu (7 * i + 4)
  have h5 := hu (7 * i + 5)
  have h6 := hu (7 * i + 6)
  refine ⟨trivial, ?_, ?_, ?_, ?_, ?_, ?_, ?_, ?_, ?_, ?_, ?_, ?_, ?_, ?_⟩ <;> linarith

end RayTrace
